import Mathlib

/-!
Shallow embedding of `app/client/widgets/FieldEditor.ts` (grist-core): the
cell-edit lifecycle controller.  Pure decision logic (constructor formula-mode
table, `_unmakeFormula`, `saveWithoutEditor`, `setAndSave`) is embedded as Lean
functions over explicit inputs; the asynchronous save path `_doSaveEdit` and
the cancel path are embedded as functions producing a result together with an
ordered trace of observable actions (prepare, writes, event emission, disposal,
awaiting the write), mirroring the sequential order of the statements in the
source.
-/

namespace GristFieldEditor

mutual
/--
Model of the `CellValue` type from `app/common/DocActions`: a cell holds a
scalar (null, boolean, number, string) or a marker array (a list whose head is
a code string such as "L" or "C" followed by payload values).  `CellList` is
an inlined list of cell values (mutual rather than nested, so that decidable
equality can be derived).  Lodash `isEqual`, used by `setAndSave`, is deep
structural equality on these values, which is exactly Lean's propositional
equality on this inductive type.
-/
inductive CellValue where
  | vNull
  | vBool (b : Bool)
  | vNum (n : Int)
  | vStr (s : String)
  | vArr (elems : CellList)
  deriving DecidableEq, Repr
inductive CellList where
  | nil
  | cons (head : CellValue) (tail : CellList)
  deriving DecidableEq, Repr
end

/--
Embedding of `setAndSave` (FieldEditor.ts lines 43-48): sets the given field
of the edited row to `value` only if different (lodash `isEqual`) from the
current value of the cell.  The embedding returns the list of writes issued to
the underlying observable's `setAndSave`: empty when the candidate deep-equals
the current value, a single write of the candidate otherwise.
-/
def setAndSave (current value : CellValue) : List CellValue :=
  if value = current then [] else [value]

/--
Embedding of `saveWithoutEditor` (FieldEditor.ts lines 26-40).  Inputs:
whether the column is a genuine formula column (`field.column().isRealFormula()`),
the optional static `skipEditor` rule of the editor constructor, the current
cell value, and the typed value.  Returns the handled flag (the function's
boolean result) together with the list of cell writes issued; the source
attaches no editor, so the trace contains only writes.
-/
def saveWithoutEditor (isRealFormula : Bool)
    (skipEditor : Option (Option String → CellValue → Option CellValue))
    (origVal : CellValue) (typedVal : Option String) :
    Bool × List CellValue :=
  if !isRealFormula then
    match skipEditor with
    | some rule =>
      match rule typedVal origVal with
      | some skipEditorValue => (true, setAndSave origVal skipEditorValue)
      | none => (false, [])
    | none => (false, [])
  else (false, [])

/--
Model of `gutil.startsWith(text, '=')` at its call sites (app/common/gutil is
a trivial string helper outside the given source file): whether the text
begins with the character `c`.
-/
def startsWithChar (s : String) (c : Char) : Bool :=
  match s.data with
  | [] => false
  | c0 :: _ => c0 == c

/--
Model of `gutil.removePrefix(text, '=') as string` at its call site: the text
with its one-character lead removed.
-/
def dropLeadChar (s : String) : String :=
  String.mk (s.data.drop 1)

/--
Result of the formula-mode decision in the `FieldEditor` constructor
(FieldEditor.ts lines 99-115): the mode flag `_isFormula`, the editable text
handed to the initial `rebuildEditor`, and whether the one-shot
convert-to-formula tooltip is offered.
-/
structure ConstructorInit where
  isFormula : Bool
  editValue : Option String
  offerToMakeFormula : Bool
  deriving DecidableEq, Repr

/--
Embedding of the constructor's initial-typed-text handling (FieldEditor.ts
lines 99-115).  `_isFormula` starts as `column.isRealFormula.peek()`; when the
session is not readonly and `startVal` is truthy (a JavaScript truthiness
test, false for both undefined and the empty string) and begins with '=': if
the column is a real formula or empty, the mode becomes formula and the
leading '=' is stripped from the editable text; otherwise the session stays
in value mode with the text unchanged and only offers the conversion.
-/
def fieldEditorStartVal (readonly : Bool) (startVal : Option String)
    (isRealFormula isEmpty : Bool) : ConstructorInit :=
  match startVal with
  | none =>
    { isFormula := isRealFormula, editValue := none, offerToMakeFormula := false }
  | some s =>
    if !readonly && (s != "") && startsWithChar s '=' then
      if isRealFormula || isEmpty then
        { isFormula := true, editValue := some (dropLeadChar s),
          offerToMakeFormula := false }
      else
        { isFormula := isRealFormula, editValue := some s,
          offerToMakeFormula := true }
    else
      { isFormula := isRealFormula, editValue := some s,
        offerToMakeFormula := false }

/--
Inputs read by `FieldEditor._unmakeFormula` (FieldEditor.ts lines 268-281):
whether the editor holder is occupied, `field.editingFormula.peek()`, the
editor's cursor position and text, `column.isRealFormula()`, and the current
`_isFormula` flag of the session.
-/
structure UnmakeInput where
  editorExists : Bool
  editingFormula : Bool
  cursorPos : Nat
  isRealFormula : Bool
  text : String
  isFormula : Bool
  deriving DecidableEq, Repr

/--
Outcome of `FieldEditor._unmakeFormula`: the session's `_isFormula` flag
afterwards, the `rebuildEditor(editValue, cursorPos)` call issued (if any),
and whether propagation of the triggering keystroke is stopped (the handler
returns `false` to stop propagation, `true` to continue).
-/
structure UnmakeResult where
  isFormula : Bool
  rebuild : Option (String × Nat)
  stopPropagation : Bool
  deriving DecidableEq, Repr

/--
Embedding of `FieldEditor._unmakeFormula` (FieldEditor.ts lines 268-281):
converts back to data only when an editor exists, the field is in
formula-editing UI mode, the cursor is at position 0, and the column is not a
genuine stored formula; it then clears `_isFormula`, rebuilds with a literal
'=' prepended and the cursor after it, and stops propagation.  Otherwise the
state is untouched and propagation continues.
-/
def unmakeFormula (i : UnmakeInput) : UnmakeResult :=
  if i.editorExists && i.editingFormula && (i.cursorPos == 0) && !i.isRealFormula then
    { isFormula := false, rebuild := some ("=" ++ i.text, 1), stopPropagation := true }
  else
    { isFormula := i.isFormula, rebuild := none, stopPropagation := false }

/--
Observable actions of the save path `_doSaveEdit`, listed in program order in
its trace: awaiting the widget's `prepForSave`, the two warning logs, the
bundled formula write (`bundleActions` around `updateColValues`, with the
optional empty-record add for a new row), the equality-gated value write via
`setAndSave`, emitting the save LifecycleEvent, disposing the session, and
awaiting the pending write (`await waitPromise`).
-/
inductive SaveAction where
  | prep
  | warnDisposed
  | warnFormulaCol
  | bundledWrite (isFormula : Bool) (formula : String) (addEmptyRow : Bool)
  | valueWrite (v : CellValue)
  | emitSave
  | dispose
  | awaitWrite
  deriving DecidableEq, Repr

/-- Whether a save action is a persistence write. -/
def SaveAction.isWrite : SaveAction → Bool
  | .bundledWrite _ _ _ => true
  | .valueWrite _ => true
  | _ => false

/--
Inputs read by `FieldEditor._doSaveEdit` (FieldEditor.ts lines 314-372):
whether the editor holder is occupied, the row index captured at save start,
whether `prepForSave` rejects, whether the session is observed disposed after
`prepForSave`, `field.editingFormula()` at save time, `col.isFormula.peek()`,
`col.formula.peek()`, the editor's produced formula text and value,
`col.isRealFormula()`, `editRow._isAddRow.peek()`, the cell's current value,
whether the issued persistence write rejects, and the row index after the
write settles.
-/
structure SaveInput where
  editorExists : Bool
  saveIndex : Int
  prepFails : Bool
  disposedDuringPrep : Bool
  editingFormula : Bool
  colIsFormula : Bool
  colFormula : String
  editorFormula : String
  editorValue : CellValue
  isRealFormula : Bool
  isAddRow : Bool
  cellCurrent : CellValue
  writeFails : Bool
  finalIndex : Int
  deriving DecidableEq, Repr

/--
The mode branch of `_doSaveEdit` (FieldEditor.ts lines 335-357): in formula
mode, a single bundled mutation when formula-ness or formula text differs
(adding an empty record when saving a non-empty formula on the add-row); in
value mode, the warning guard for a genuine formula column, otherwise the
equality-gated write of the editor's value.
-/
def doSaveWrites (i : SaveInput) : List SaveAction :=
  if i.editingFormula then
    if !i.colIsFormula || (i.editorFormula != i.colFormula) then
      [SaveAction.bundledWrite true i.editorFormula
        (i.isAddRow && (i.editorFormula != ""))]
    else []
  else
    if i.isRealFormula then [SaveAction.warnFormulaCol]
    else (setAndSave i.cellCurrent i.editorValue).map SaveAction.valueWrite

/--
Embedding of `FieldEditor._doSaveEdit` (FieldEditor.ts lines 314-372) as a
result together with the ordered trace of its observable actions.  The result
is `some flag` when the returned promise resolves with the
suppress-cursor-advance flag, `some false` on the two early returns (no
editor; disposed during preparation), and `none` when the promise rejects —
either `prepForSave` failing (before any trace beyond the preparation) or an
issued persistence write failing at the final await (after the event emission
and disposal already happened).
-/
def doSaveEdit (i : SaveInput) : Option Bool × List SaveAction :=
  if !i.editorExists then (some false, [])
  else if i.prepFails then (none, [SaveAction.prep])
  else if i.disposedDuringPrep then
    (some false, [SaveAction.prep, SaveAction.warnDisposed])
  else
    (if (doSaveWrites i).any SaveAction.isWrite && i.writeFails then none
     else some (i.editingFormula || (i.saveIndex != i.finalIndex)),
     SaveAction.prep :: (doSaveWrites i ++
       [SaveAction.emitSave, SaveAction.dispose, SaveAction.awaitWrite]))

/-- Observable actions of the cancel path `_cancelEdit`. -/
inductive CancelAction where
  | emitCancel
  | disposeSession
  deriving DecidableEq, Repr

/--
Embedding of `FieldEditor._cancelEdit` (FieldEditor.ts lines 300-310): a
no-op on an already-disposed session, otherwise emit the cancel
LifecycleEvent and then dispose.
-/
def cancelEdit (isDisposed : Bool) : List CancelAction :=
  if isDisposed then []
  else [CancelAction.emitCancel, CancelAction.disposeSession]

/-- A concrete save input used by witnesses: a live session saving the plain
value "x" over a null cell, with the row index moving from 0 to 1 during the
save. -/
def sampleValueSave : SaveInput :=
  { editorExists := true, saveIndex := 0, prepFails := false,
    disposedDuringPrep := false, editingFormula := false, colIsFormula := false,
    colFormula := "", editorFormula := "", editorValue := CellValue.vStr "x",
    isRealFormula := false, isAddRow := false, cellCurrent := CellValue.vNull,
    writeFails := false, finalIndex := 1 }

/-- The sample save input with a rejecting `prepForSave` step. -/
def samplePrepFail : SaveInput :=
  { sampleValueSave with prepFails := true }

/-- The sample save input with a rejecting persistence write. -/
def sampleWriteFail : SaveInput :=
  { sampleValueSave with writeFails := true }

/-- The sample save input attempted on a genuine formula column. -/
def sampleFormulaColGuard : SaveInput :=
  { sampleValueSave with isRealFormula := true }

/--
Modelled from the spec: state of the memoized single-flight save (`asyncOnce`
from app/common/AsyncCreate — not part of the given source file — used at
FieldEditor.ts line 74 for `_saveEdit` and at line 401 for the standalone
formula editor's `saveEdit`).  Per the spec, the first call starts the
underlying operation and caches its pending/settled result, later calls
return the same cached handle, and settlement does not reset the cache.
`cache` holds the identifier of the one cached run, `runCount` the number of
times the underlying operation was started.
-/
structure AsyncOnceState where
  cache : Option Nat
  runCount : Nat
  deriving DecidableEq, Repr

/-- Events applied to the memoized save: a trigger of the save (a call), or
the settlement of the underlying operation. -/
inductive OnceEvent where
  | call
  | settle
  deriving DecidableEq, Repr

/--
Modelled from the spec: running a sequence of triggers and settlements
against the memoized save starting from state `s`.  Each call returns the
cached run's handle, starting the underlying operation only when no run is
cached; settlement leaves the cache in place.  Returns the final state and
the handle observed by each call, in order.
-/
def asyncOnceRun (s : AsyncOnceState) : List OnceEvent → AsyncOnceState × List Nat
  | [] => (s, [])
  | OnceEvent.call :: rest =>
    match s.cache with
    | some h =>
      let r := asyncOnceRun s rest
      (r.1, h :: r.2)
    | none =>
      let r := asyncOnceRun { cache := some s.runCount, runCount := s.runCount + 1 } rest
      (r.1, s.runCount :: r.2)
  | OnceEvent.settle :: rest => asyncOnceRun s rest

/-- The memoized-save state of a fresh edit session: nothing cached, the
underlying save never started. -/
def asyncOnceInit : AsyncOnceState := { cache := none, runCount := 0 }

end GristFieldEditor

namespace GristFieldEditor

/-- C8: the equality-gated cell write `setAndSave` issues no write when the
candidate deep-equals the current value, and exactly one write of the
candidate otherwise. -/
theorem setAndSave_equality_gated (current value : CellValue) :
    (value = current → setAndSave current value = []) ∧
    (value ≠ current → setAndSave current value = [value]) := by
  constructor <;> intro h <;> simp [setAndSave, h]

/-- Witness for C8 at concrete inputs: a nested marker array equal to the
current value produces no write; a differing boolean produces exactly one
write of the candidate. -/
theorem setAndSave_equality_gated_witness :
    setAndSave
        (.vArr (.cons (.vStr "L") (.cons (.vNum 1)
          (.cons (.vArr (.cons (.vStr "d") (.cons .vNull .nil))) .nil))))
        (.vArr (.cons (.vStr "L") (.cons (.vNum 1)
          (.cons (.vArr (.cons (.vStr "d") (.cons .vNull .nil))) .nil)))) = [] ∧
    setAndSave (.vBool false) (.vBool true) = [.vBool true] :=
  ⟨(setAndSave_equality_gated _ _).1 rfl,
   (setAndSave_equality_gated _ _).2 (by decide)⟩

/-- C9: the fast-accept path returns handled=true exactly when the column is
not a genuine formula, a `skipEditor`/quickAccept rule is declared, and the
rule applied to the typed input and prior value yields a defined replacement;
on the handled path the writes are exactly the equality-gated write of the
replacement, and on the unhandled path nothing is written. -/
theorem saveWithoutEditor_fast_accept (isRealFormula : Bool)
    (skipEditor : Option (Option String → CellValue → Option CellValue))
    (origVal : CellValue) (typedVal : Option String) :
    ((saveWithoutEditor isRealFormula skipEditor origVal typedVal).1 = true ↔
      isRealFormula = false ∧ ∃ rule v, skipEditor = some rule ∧
        rule typedVal origVal = some v) ∧
    (∀ rule v, isRealFormula = false → skipEditor = some rule →
      rule typedVal origVal = some v →
      (saveWithoutEditor isRealFormula skipEditor origVal typedVal).2 =
        setAndSave origVal v) ∧
    ((saveWithoutEditor isRealFormula skipEditor origVal typedVal).1 = false →
      (saveWithoutEditor isRealFormula skipEditor origVal typedVal).2 = []) := by
  refine ⟨?_, ?_, ?_⟩
  · constructor
    · intro h
      cases isRealFormula with
      | true => simp [saveWithoutEditor] at h
      | false =>
        cases skipEditor with
        | none => simp [saveWithoutEditor] at h
        | some rule =>
          cases hv : rule typedVal origVal with
          | none => simp [saveWithoutEditor, hv] at h
          | some v => exact ⟨rfl, rule, v, rfl, hv⟩
    · rintro ⟨hf, rule, v, hs, hv⟩
      subst hf; subst hs
      simp [saveWithoutEditor, hv]
  · intro rule v hf hs hv
    subst hf; subst hs
    simp [saveWithoutEditor, hv]
  · intro h
    cases isRealFormula with
    | true => simp [saveWithoutEditor]
    | false =>
      cases skipEditor with
      | none => simp [saveWithoutEditor]
      | some rule =>
        cases hv : rule typedVal origVal with
        | none => simp [saveWithoutEditor, hv]
        | some v => simp [saveWithoutEditor, hv] at h

/-- Witness for C9, the spec's example: a non-formula boolean column with
prior value false, typed input " ", and a quickAccept rule toggling booleans
on space, yields handled=true with a single direct write of true. -/
theorem saveWithoutEditor_fast_accept_witness :
    (saveWithoutEditor false
      (some (fun t old => if t = some " " then
        match old with
        | .vBool b => some (.vBool (!b))
        | _ => none
        else none))
      (.vBool false) (some " ")).1 = true ∧
    (saveWithoutEditor false
      (some (fun t old => if t = some " " then
        match old with
        | .vBool b => some (.vBool (!b))
        | _ => none
        else none))
      (.vBool false) (some " ")).2 = [.vBool true] := by
  refine ⟨?_, ?_⟩
  · exact (saveWithoutEditor_fast_accept false _ (.vBool false) (some " ")).1.mpr
      ⟨rfl, _, .vBool true, rfl, by decide⟩
  · have h := (saveWithoutEditor_fast_accept false
      (some (fun t old => if t = some " " then
        match old with
        | .vBool b => some (.vBool (!b))
        | _ => none
        else none))
      (.vBool false) (some " ")).2.1 _ (.vBool true) rfl rfl (by decide)
    rw [h]; decide

/-- Text that begins with '=' is non-empty, so the JavaScript truthiness test
on it passes. -/
theorem startsWithChar_ne_empty (s : String) (h : startsWithChar s '=' = true) :
    (s != "") = true := by
  rcases s with ⟨l⟩
  cases l with
  | nil => exact absurd h (by decide)
  | cons c cs => simp [bne_iff_ne, String.ext_iff]

/-- C2: at construction of a non-readonly session — a real-formula column
starts in formula mode (a leading '=' of the typed text is stripped, no
conversion offer); typed text with a leading '=' on an empty non-formula
column enters formula mode with the '=' stripped; typed text with a leading
'=' on a non-empty non-formula column stays in value mode, keeps the text
unchanged, and presents the one-shot convert-to-formula offer. -/
theorem fieldEditorStartVal_mode_table (startVal : Option String)
    (isRealFormula isEmpty : Bool) :
    (isRealFormula = true →
      (fieldEditorStartVal false startVal isRealFormula isEmpty).isFormula = true ∧
      (fieldEditorStartVal false startVal isRealFormula isEmpty).offerToMakeFormula = false ∧
      ∀ s, startVal = some s → startsWithChar s '=' = true →
        (fieldEditorStartVal false startVal isRealFormula isEmpty).editValue =
          some (dropLeadChar s)) ∧
    (isEmpty = true →
      ∀ s, startVal = some s → startsWithChar s '=' = true →
        (fieldEditorStartVal false startVal isRealFormula isEmpty).isFormula = true ∧
        (fieldEditorStartVal false startVal isRealFormula isEmpty).editValue =
          some (dropLeadChar s) ∧
        (fieldEditorStartVal false startVal isRealFormula isEmpty).offerToMakeFormula =
          false) ∧
    (isEmpty = false → isRealFormula = false →
      ∀ s, startVal = some s → startsWithChar s '=' = true →
        (fieldEditorStartVal false startVal isRealFormula isEmpty).isFormula = false ∧
        (fieldEditorStartVal false startVal isRealFormula isEmpty).editValue = some s ∧
        (fieldEditorStartVal false startVal isRealFormula isEmpty).offerToMakeFormula =
          true) := by
  refine ⟨?_, ?_, ?_⟩
  · intro hf
    subst hf
    cases startVal with
    | none => exact ⟨rfl, rfl, fun s h => by cases h⟩
    | some s =>
      by_cases hs : startsWithChar s '=' = true
      · have hne := startsWithChar_ne_empty s hs
        refine ⟨?_, ?_, ?_⟩
        · simp [fieldEditorStartVal, hs, hne]
        · simp [fieldEditorStartVal, hs, hne]
        · intro s' hs' _
          cases hs'
          simp [fieldEditorStartVal, hs, hne]
      · have hs' : startsWithChar s '=' = false := by
          cases h : startsWithChar s '=' <;> simp_all
        refine ⟨?_, ?_, ?_⟩
        · simp [fieldEditorStartVal, hs']
        · simp [fieldEditorStartVal, hs']
        · intro s' heq hc
          cases heq
          exact absurd hc hs
  · intro he s heq hc
    subst he
    cases heq
    have hne := startsWithChar_ne_empty s hc
    simp [fieldEditorStartVal, hc, hne]
  · intro he hf s heq hc
    subst he; subst hf
    cases heq
    have hne := startsWithChar_ne_empty s hc
    simp [fieldEditorStartVal, hc, hne]

/-- Witness for C2 at the spec's third row: typed text "=foo" on a non-empty
non-formula column stays in value mode, keeps the '=', and offers the
conversion. -/
theorem fieldEditorStartVal_mode_table_witness :
    (fieldEditorStartVal false (some "=foo") false false).isFormula = false ∧
    (fieldEditorStartVal false (some "=foo") false false).editValue = some "=foo" ∧
    (fieldEditorStartVal false (some "=foo") false false).offerToMakeFormula = true :=
  (fieldEditorStartVal_mode_table (some "=foo") false false).2.2 rfl rfl
    "=foo" rfl (by decide)

/-- C10: a readonly session skips the '='-prefix handling entirely: on a
non-formula column with typed text beginning with '=', it stays in value
mode, the editable text keeps its leading '=', and no convert-to-formula
offer is presented. -/
theorem fieldEditorStartVal_readonly_skips (startVal : Option String)
    (isEmpty : Bool) (s : String) (h1 : startVal = some s)
    (h2 : startsWithChar s '=' = true) :
    fieldEditorStartVal true startVal false isEmpty =
      { isFormula := false, editValue := some s, offerToMakeFormula := false } := by
  subst h1
  simp [fieldEditorStartVal]

/-- Witness for C10: readonly session, typed text "=foo", non-formula
column. -/
theorem fieldEditorStartVal_readonly_skips_witness :
    fieldEditorStartVal true (some "=foo") false false =
      { isFormula := false, editValue := some "=foo", offerToMakeFormula := false } :=
  fieldEditorStartVal_readonly_skips (some "=foo") false "=foo" rfl (by decide)

/-- C6: exit-formula-mode changes state only when an editor exists, the field
is in formula-editing UI mode, the cursor is at position 0, and the column is
not a genuine stored formula — then it switches to value mode, rebuilds with
a literal '=' prepended to the text and the cursor placed after it, and stops
propagation; in every other case (in particular on a real formula column)
mode and text are unchanged and propagation continues. -/
theorem unmakeFormula_spec (i : UnmakeInput) :
    (i.editorExists = true → i.editingFormula = true → i.cursorPos = 0 →
      i.isRealFormula = false →
      unmakeFormula i =
        { isFormula := false, rebuild := some ("=" ++ i.text, 1),
          stopPropagation := true }) ∧
    ((i.editorExists = false ∨ i.editingFormula = false ∨ i.cursorPos ≠ 0 ∨
        i.isRealFormula = true) →
      (unmakeFormula i).isFormula = i.isFormula ∧
      (unmakeFormula i).rebuild = none ∧
      (unmakeFormula i).stopPropagation = false) := by
  constructor
  · intro h1 h2 h3 h4
    simp [unmakeFormula, h1, h2, h3, h4]
  · intro h
    rcases h with h | h | h | h <;> simp [unmakeFormula, h]

/-- Witness for C6: the conversion-undo case rebuilds with '=' prepended and
stops propagation; the guard case (real formula column) leaves everything
unchanged and continues propagation. -/
theorem unmakeFormula_spec_witness :
    unmakeFormula ⟨true, true, 0, false, "foo", true⟩ =
      { isFormula := false, rebuild := some ("=foo", 1), stopPropagation := true } ∧
    ((unmakeFormula ⟨true, true, 0, true, "foo", true⟩).isFormula = true ∧
      (unmakeFormula ⟨true, true, 0, true, "foo", true⟩).rebuild = none ∧
      (unmakeFormula ⟨true, true, 0, true, "foo", true⟩).stopPropagation = false) := by
  constructor
  · have h := (unmakeFormula_spec ⟨true, true, 0, false, "foo", true⟩).1 rfl rfl rfl rfl
    simpa using h
  · exact (unmakeFormula_spec ⟨true, true, 0, true, "foo", true⟩).2
      (Or.inr (Or.inr (Or.inr rfl)))

/-- Every action issued by the mode branch of the save path is either a
persistence write or the formula-column warning. -/
theorem doSaveWrites_shape (i : SaveInput) (a : SaveAction)
    (h : a ∈ doSaveWrites i) :
    a.isWrite = true ∨ a = SaveAction.warnFormulaCol := by
  unfold doSaveWrites at h
  split at h
  · split at h
    · simp at h
      subst h
      left; rfl
    · simp at h
  · split at h
    · simp at h
      subst h
      right; rfl
    · rw [setAndSave] at h
      split at h
      · simp at h
      · simp at h
        subst h
        left; rfl

/-- C1: every completed save returns the suppress-cursor-advance flag equal
to the disjunction of "it was a formula save" and "the row index captured at
save start differs from the row index observed after the save". -/
theorem doSaveEdit_suppress_flag (i : SaveInput) (b : Bool)
    (h1 : i.editorExists = true) (h2 : i.prepFails = false)
    (h3 : i.disposedDuringPrep = false)
    (h4 : (doSaveEdit i).1 = some b) :
    b = (i.editingFormula || (i.saveIndex != i.finalIndex)) := by
  simp [doSaveEdit, h1, h2, h3] at h4
  exact h4.2.symm

/-- Witness for C1: the sample value save moves the row index from 0 to 1, so
the completed save returns true, and indeed the row index differs. -/
theorem doSaveEdit_suppress_flag_witness :
    true = (sampleValueSave.editingFormula ||
      (sampleValueSave.saveIndex != sampleValueSave.finalIndex)) :=
  doSaveEdit_suppress_flag sampleValueSave true rfl rfl rfl (by decide)

/-- Counterexample to C5 as stated: when the widget's prepare-for-save step
rejects, `_doSaveEdit` rejects before reaching its disposal statement, so the
session is not disposed by the save path. -/
theorem doSaveEdit_prepFail_no_dispose :
    SaveAction.dispose ∉ (doSaveEdit samplePrepFail).2 := by decide

/-- C5 amended: on every save invocation where an editor exists and the
prepare-for-save step succeeds without the session having been disposed
meanwhile, the session is disposed — regardless of the mode, of whether any
write was needed, and of whether the persistence write fails. -/
theorem doSaveEdit_disposes (i : SaveInput)
    (h1 : i.editorExists = true) (h2 : i.prepFails = false)
    (h3 : i.disposedDuringPrep = false) :
    SaveAction.dispose ∈ (doSaveEdit i).2 := by
  simp [doSaveEdit, h1, h2, h3]

/-- Witness for the amended C5: the session is disposed even when the
persistence write fails. -/
theorem doSaveEdit_disposes_witness :
    SaveAction.dispose ∈ (doSaveEdit sampleWriteFail).2 :=
  doSaveEdit_disposes sampleWriteFail rfl rfl rfl

/-- C7: a value-mode save into a genuine formula column persists nothing —
the guard logs its warning and no write action is issued — and the save still
emits its LifecycleEvent, disposes the session, and resolves (only a changed
row index can still suppress the cursor advance) without surfacing an
error. -/
theorem doSaveEdit_value_into_formula_guard (i : SaveInput)
    (h1 : i.editorExists = true) (h2 : i.prepFails = false)
    (h3 : i.disposedDuringPrep = false) (h4 : i.editingFormula = false)
    (h5 : i.isRealFormula = true) :
    SaveAction.warnFormulaCol ∈ (doSaveEdit i).2 ∧
    (∀ a ∈ (doSaveEdit i).2, a.isWrite = false) ∧
    SaveAction.emitSave ∈ (doSaveEdit i).2 ∧
    SaveAction.dispose ∈ (doSaveEdit i).2 ∧
    (doSaveEdit i).1 = some (i.saveIndex != i.finalIndex) := by
  have hws : doSaveWrites i = [SaveAction.warnFormulaCol] := by
    simp [doSaveWrites, h4, h5]
  refine ⟨?_, ?_, ?_, ?_, ?_⟩ <;>
    simp [doSaveEdit, h1, h2, h3, h4, hws, SaveAction.isWrite]

/-- Witness for C7 at the sample formula-column guard input. -/
theorem doSaveEdit_value_into_formula_guard_witness :
    SaveAction.warnFormulaCol ∈ (doSaveEdit sampleFormulaColGuard).2 ∧
    (∀ a ∈ (doSaveEdit sampleFormulaColGuard).2, a.isWrite = false) ∧
    SaveAction.emitSave ∈ (doSaveEdit sampleFormulaColGuard).2 ∧
    SaveAction.dispose ∈ (doSaveEdit sampleFormulaColGuard).2 ∧
    (doSaveEdit sampleFormulaColGuard).1 =
      some (sampleFormulaColGuard.saveIndex != sampleFormulaColGuard.finalIndex) :=
  doSaveEdit_value_into_formula_guard sampleFormulaColGuard rfl rfl rfl rfl rfl

/-- C4: in every save that reaches the persistence step (issues a write), the
save LifecycleEvent is emitted and the session is disposed strictly before
the pending write is awaited — the trace ends with the emission, the
disposal and the await, in that order, none of which occurs earlier, and the
write was initiated earlier; likewise cancel on a live session emits its
LifecycleEvent strictly before disposing. -/
theorem doSaveEdit_event_order (i : SaveInput)
    (hw : ∃ a ∈ (doSaveEdit i).2, a.isWrite = true) :
    (∃ pre, (doSaveEdit i).2 =
        pre ++ [SaveAction.emitSave, SaveAction.dispose, SaveAction.awaitWrite] ∧
      SaveAction.emitSave ∉ pre ∧ SaveAction.dispose ∉ pre ∧
      SaveAction.awaitWrite ∉ pre ∧ ∃ w ∈ pre, w.isWrite = true) ∧
    (∃ pre2, cancelEdit false = pre2 ++ [CancelAction.disposeSession] ∧
      CancelAction.emitCancel ∈ pre2 ∧ CancelAction.disposeSession ∉ pre2) := by
  constructor
  · rcases hw with ⟨a, ha, hwa⟩
    cases he : i.editorExists with
    | false => simp [doSaveEdit, he] at ha
    | true =>
      cases hp : i.prepFails with
      | true =>
        simp [doSaveEdit, he, hp] at ha
        subst ha
        exact absurd hwa (by decide)
      | false =>
        cases hd : i.disposedDuringPrep with
        | true =>
          simp [doSaveEdit, he, hp, hd] at ha
          rcases ha with ha | ha <;> subst ha <;> exact absurd hwa (by decide)
        | false =>
          have htr : (doSaveEdit i).2 =
              (SaveAction.prep :: doSaveWrites i) ++
                [SaveAction.emitSave, SaveAction.dispose, SaveAction.awaitWrite] := by
            simp [doSaveEdit, he, hp, hd]
          refine ⟨SaveAction.prep :: doSaveWrites i, htr, ?_, ?_, ?_, ?_⟩
          · intro hmem
            rcases List.mem_cons.mp hmem with h | h
            · exact absurd h (by decide)
            · rcases doSaveWrites_shape i _ h with h' | h' <;>
                exact absurd h' (by decide)
          · intro hmem
            rcases List.mem_cons.mp hmem with h | h
            · exact absurd h (by decide)
            · rcases doSaveWrites_shape i _ h with h' | h' <;>
                exact absurd h' (by decide)
          · intro hmem
            rcases List.mem_cons.mp hmem with h | h
            · exact absurd h (by decide)
            · rcases doSaveWrites_shape i _ h with h' | h' <;>
                exact absurd h' (by decide)
          · rw [htr] at ha
            rcases List.mem_append.mp ha with h | h
            · exact ⟨a, h, hwa⟩
            · simp [List.mem_cons] at h
              rcases h with h | h | h <;> subst h <;> exact absurd hwa (by decide)
  · exact ⟨[CancelAction.emitCancel], rfl, by decide, by decide⟩

/-- Witness for C4: the sample value save issues a write; its trace ends with
the emission, disposal and await in order, and cancel on a live session
emits before disposing. -/
theorem doSaveEdit_event_order_witness :
    (∃ pre, (doSaveEdit sampleValueSave).2 =
        pre ++ [SaveAction.emitSave, SaveAction.dispose, SaveAction.awaitWrite] ∧
      SaveAction.emitSave ∉ pre ∧ SaveAction.dispose ∉ pre ∧
      SaveAction.awaitWrite ∉ pre ∧ ∃ w ∈ pre, w.isWrite = true) ∧
    (∃ pre2, cancelEdit false = pre2 ++ [CancelAction.disposeSession] ∧
      CancelAction.emitCancel ∈ pre2 ∧ CancelAction.disposeSession ∉ pre2) :=
  doSaveEdit_event_order sampleValueSave (by decide)

/-- All states the memoized save reaches from a fresh session either are
untouched (nothing cached, no run) or hold exactly the one first run (handle
0) in the cache; every handle returned to a caller is that first run's, and
once any call occurred the underlying operation has been started exactly
once. -/
theorem asyncOnceRun_aux (evs : List OnceEvent) (s : AsyncOnceState)
    (hs : (s.cache = none ∧ s.runCount = 0) ∨ (s.cache = some 0 ∧ s.runCount = 1)) :
    (((asyncOnceRun s evs).1.cache = none ∧ (asyncOnceRun s evs).1.runCount = 0) ∨
      ((asyncOnceRun s evs).1.cache = some 0 ∧ (asyncOnceRun s evs).1.runCount = 1)) ∧
    (∀ h ∈ (asyncOnceRun s evs).2, h = 0) ∧
    (OnceEvent.call ∈ evs → (asyncOnceRun s evs).1.runCount = 1) ∧
    (s.runCount = 1 → (asyncOnceRun s evs).1.runCount = 1) := by
  induction evs generalizing s with
  | nil =>
    refine ⟨hs, ?_, ?_, ?_⟩
    · intro h hm
      simp [asyncOnceRun] at hm
    · intro hc
      simp at hc
    · intro h1
      exact h1
  | cons e rest ih =>
    rcases s with ⟨c, n⟩
    rcases hs with ⟨hc, hn⟩ | ⟨hc, hn⟩ <;> subst hc <;> subst hn
    · cases e with
      | call =>
        have h := ih ⟨some 0, 1⟩ (Or.inr ⟨rfl, rfl⟩)
        refine ⟨?_, ?_, ?_, ?_⟩
        · simpa [asyncOnceRun] using h.1
        · intro x hx
          simp [asyncOnceRun] at hx
          rcases hx with hx | hx
          · exact hx
          · exact h.2.1 x hx
        · intro _
          simpa [asyncOnceRun] using h.2.2.2 rfl
        · intro h1
          exact absurd h1 (by decide)
      | settle =>
        have h := ih ⟨none, 0⟩ (Or.inl ⟨rfl, rfl⟩)
        refine ⟨?_, ?_, ?_, ?_⟩
        · simpa [asyncOnceRun] using h.1
        · intro x hx
          simp [asyncOnceRun] at hx
          exact h.2.1 x hx
        · intro hcall
          rw [List.mem_cons] at hcall
          rcases hcall with hcall | hcall
          · exact absurd hcall (by decide)
          · simpa [asyncOnceRun] using h.2.2.1 hcall
        · intro h1
          exact absurd h1 (by decide)
    · cases e with
      | call =>
        have h := ih ⟨some 0, 1⟩ (Or.inr ⟨rfl, rfl⟩)
        refine ⟨?_, ?_, ?_, ?_⟩
        · simpa [asyncOnceRun] using h.1
        · intro x hx
          simp [asyncOnceRun] at hx
          rcases hx with hx | hx
          · exact hx
          · exact h.2.1 x hx
        · intro _
          simpa [asyncOnceRun] using h.2.2.2 rfl
        · intro _
          simpa [asyncOnceRun] using h.2.2.2 rfl
      | settle =>
        have h := ih ⟨some 0, 1⟩ (Or.inr ⟨rfl, rfl⟩)
        refine ⟨?_, ?_, ?_, ?_⟩
        · simpa [asyncOnceRun] using h.1
        · intro x hx
          simp [asyncOnceRun] at hx
          exact h.2.1 x hx
        · intro _
          simpa [asyncOnceRun] using h.2.2.2 rfl
        · intro _
          simpa [asyncOnceRun] using h.2.2.2 rfl

/-- C3: the save is single-flight — over any sequence of save triggers and
settlements on a fresh session, the underlying save operation is started at
most once (exactly once as soon as one trigger occurred, and never restarted
after settlement), and every trigger observes the same first run's
outcome. -/
theorem asyncOnce_single_flight (evs : List OnceEvent) :
    (asyncOnceRun asyncOnceInit evs).1.runCount ≤ 1 ∧
    (OnceEvent.call ∈ evs → (asyncOnceRun asyncOnceInit evs).1.runCount = 1) ∧
    (∀ h ∈ (asyncOnceRun asyncOnceInit evs).2, h = 0) := by
  have h := asyncOnceRun_aux evs asyncOnceInit (Or.inl ⟨rfl, rfl⟩)
  refine ⟨?_, h.2.2.1, h.2.1⟩
  rcases h.1 with ⟨_, h0⟩ | ⟨_, h1⟩
  · rw [h0]
    exact Nat.zero_le 1
  · rw [h1]

/-- Witness for C3: two rapid triggers, a settlement, then a late trigger
still amount to exactly one start of the underlying save. -/
theorem asyncOnce_single_flight_witness :
    (asyncOnceRun asyncOnceInit
      [OnceEvent.call, OnceEvent.call, OnceEvent.settle, OnceEvent.call]).1.runCount = 1 :=
  (asyncOnce_single_flight
    [OnceEvent.call, OnceEvent.call, OnceEvent.settle, OnceEvent.call]).2.1 (by decide)

end GristFieldEditor
